import Mathlib

/-!
Verification model for the goflow workflow-engine runtime.

Shallow embedding of the repository's Redis-backed state store, data
store, task-queue initialization, queue consumer, worker registry and
flow registration.  The Redis string keyspace is modelled as a function
from keys to optional values; every operation of the source becomes a
pure state transformer over it.
-/

set_option autoImplicit false

namespace GoFlow

/-- A Redis string keyspace: each key maps to an optional stored value. -/
def RDB : Type := String → Option String

/-- `SET key value` (no TTL), as used by the state store. -/
def RDB.setKey (db : RDB) (k v : String) : RDB :=
  fun x => if x = k then some v else db x

/-- `DEL key`. -/
def RDB.delKey (db : RDB) (k : String) : RDB :=
  fun x => if x = k then none else db x

/-- The empty keyspace. -/
def RDB.empty : RDB := fun _ => none

/-! ## Redis glob matching

`RedisStateStore.Cleanup` and `RedisDataStore.Cleanup` issue
`SCAN 0 MATCH <keyPath>.*` and delete every matched key.  This follows
the Redis matcher (`stringmatchlen`): a literal character matches
itself, `?` matches any single character, `*` matches any possibly
empty sequence, `[...]` is a character class (with `^` negation, `a-b`
ranges — swapped when given backwards — and `\` escapes; an
unterminated class ends at the end of the pattern) and `\c` escapes
`c` (a trailing lone backslash is a literal backslash).  The matcher is
split into a lexer that turns the pattern into tokens and a token
matcher, so that both reduce in the kernel. -/

/-- One member of a `[...]` character class: a single character or an
inclusive range. -/
inductive ClsItem where
  | one (c : Char)
  | range (lo hi : Char)
deriving DecidableEq

/-- A lexed pattern token. -/
inductive GlobTok where
  | lit (c : Char)
  | anyOne
  | star
  | cls (neg : Bool) (items : List ClsItem)
deriving DecidableEq

/-- Lexer state, one character consumed per step.  `out` is outside any
class; `escO` just saw `\` outside; `openBr` just saw `[`; `inC` is
inside a class (negation flag, members so far in reverse); `escC` just
saw `\` inside a class; `pend` holds a class member candidate that may
still start an `a-b` range; `pendD` saw that candidate and a `-`. -/
inductive LexMode where
  | out
  | escO
  | openBr
  | inC (neg : Bool) (items : List ClsItem)
  | escC (neg : Bool) (items : List ClsItem)
  | pend (neg : Bool) (items : List ClsItem) (c : Char)
  | pendD (neg : Bool) (items : List ClsItem) (c : Char)
deriving DecidableEq

/-- Tokens emitted when the pattern ends in a given state: a trailing
lone `\` is a literal, an unterminated class ends at the end of the
pattern with its members so far (a pending candidate or `-` becomes a
plain member), as in `stringmatchlen`. -/
def lexEnd : LexMode → List GlobTok
  | .out => []
  | .escO => [GlobTok.lit '\\']
  | .openBr => [GlobTok.cls false []]
  | .inC neg items => [GlobTok.cls neg items.reverse]
  | .escC neg items => [GlobTok.cls neg (ClsItem.one '\\' :: items).reverse]
  | .pend neg items c => [GlobTok.cls neg (ClsItem.one c :: items).reverse]
  | .pendD neg items c =>
    [GlobTok.cls neg (ClsItem.one '-' :: ClsItem.one c :: items).reverse]

/-- Lexes a Redis glob pattern.  Branch order follows `stringmatchlen`:
inside a class the checks are escape, terminator, range, plain
member. -/
def lexAux : LexMode → List Char → List GlobTok
  | m, [] => lexEnd m
  | .out, ch :: rest =>
    if ch = '*' then GlobTok.star :: lexAux .out rest
    else if ch = '?' then GlobTok.anyOne :: lexAux .out rest
    else if ch = '[' then lexAux .openBr rest
    else if ch = '\\' then lexAux .escO rest
    else GlobTok.lit ch :: lexAux .out rest
  | .escO, ch :: rest => GlobTok.lit ch :: lexAux .out rest
  | .openBr, ch :: rest =>
    if ch = '^' then lexAux (.inC true []) rest
    else if ch = '\\' then lexAux (.escC false []) rest
    else if ch = ']' then GlobTok.cls false [] :: lexAux .out rest
    else lexAux (.pend false [] ch) rest
  | .inC neg items, ch :: rest =>
    if ch = '\\' then lexAux (.escC neg items) rest
    else if ch = ']' then GlobTok.cls neg items.reverse :: lexAux .out rest
    else lexAux (.pend neg items ch) rest
  | .escC neg items, ch :: rest => lexAux (.inC neg (ClsItem.one ch :: items)) rest
  | .pend neg items c, ch :: rest =>
    if ch = '-' then lexAux (.pendD neg items c) rest
    else if ch = '\\' then lexAux (.escC neg (ClsItem.one c :: items)) rest
    else if ch = ']' then
      GlobTok.cls neg (ClsItem.one c :: items).reverse :: lexAux .out rest
    else lexAux (.pend neg (ClsItem.one c :: items) ch) rest
  | .pendD neg items c, ch :: rest =>
    lexAux (.inC neg (ClsItem.range c ch :: items)) rest

/-- Does a character belong to one class member?  Backwards ranges are
swapped, as in `stringmatchlen`. -/
def clsItemMatch (c : Char) : ClsItem → Bool
  | .one a => a = c
  | .range a b => if a ≤ b then a ≤ c ∧ c ≤ b else b ≤ c ∧ c ≤ a

/-- Does a character match one (non-star) pattern token? -/
def tokMatch (c : Char) : GlobTok → Bool
  | .lit a => a = c
  | .anyOne => true
  | .star => true
  | .cls neg items =>
    if neg then !(items.any (clsItemMatch c)) else items.any (clsItemMatch c)

/-- A `*` wildcard may swallow any suffix of the subject before the rest
of the pattern (the continuation `m`) takes over. -/
def globStar (m : List Char → Bool) : List Char → Bool
  | [] => m []
  | c :: cs => m (c :: cs) || globStar m cs

/-- Matches a lexed pattern against a subject. -/
def globToksMatch : List GlobTok → List Char → Bool
  | [], s => s.isEmpty
  | t :: ts, s =>
    if t = GlobTok.star then globStar (globToksMatch ts) s
    else
      match s with
      | [] => false
      | c :: cs => tokMatch c t && globToksMatch ts cs

/-- Redis glob matching, as `SCAN MATCH` applies it to each key. -/
def globMatch (p s : List Char) : Bool :=
  globToksMatch (lexAux .out p) s

/-- `true` when a string contains none of the glob metacharacters
`*`, `?`, `[`, `\` — for such strings every pattern character lexes to
a literal token. -/
def globLiteral (s : String) : Bool :=
  s.data.all fun c => decide (c ≠ '*' ∧ c ≠ '?' ∧ c ≠ '[' ∧ c ≠ '\\')

/-! ## State store (`core/redis-statestore`, `RedisStateStore`)

`Configure` records the namespace `core.<flow>.<req>` in `KeyPath`;
every operation then addresses `<KeyPath>.<key>` in the shared redis
keyspace. -/

inductive UpdateError where
  /-- `"[<key>] not exist"`: the watched key is absent (redis.Nil). -/
  | notFound (key : String)
  /-- `"Old value doesn't match for key <key>"`. -/
  | mismatch (key : String)
deriving DecidableEq

structure RedisStateStore where
  keyPath : String
deriving DecidableEq

namespace RedisStateStore

/-- `Configure(flowName, requestId)` sets `KeyPath = "core.<flow>.<req>"`. -/
def configure (flowName requestId : String) : RedisStateStore :=
  { keyPath := "core." ++ flowName ++ "." ++ requestId }

/-- The full key every operation addresses: `<KeyPath>.<key>`. -/
def fullKey (s : RedisStateStore) (k : String) : String :=
  s.keyPath ++ "." ++ k

/-- `Set(key, value)`: redis SET (no TTL) on the namespaced key. -/
def setValue (s : RedisStateStore) (k v : String) (db : RDB) : RDB :=
  db.setKey (s.fullKey k) v

/-- `Get(key)`: redis GET on the namespaced key; `none` models redis.Nil. -/
def getValue (s : RedisStateStore) (k : String) (db : RDB) : Option String :=
  db (s.fullKey k)

/-- `Update(key, oldValue, newValue)`: compare-and-set inside
`WATCH key` / `MULTI`.  Absent key fails with `notFound`; a current
value different from `oldValue` fails with `mismatch`; only on success
is the key overwritten with `newValue`.  Returns the error (if any)
paired with the keyspace after the transaction. -/
def update (s : RedisStateStore) (k oldValue newValue : String) (db : RDB) :
    Option UpdateError × RDB :=
  let key := s.fullKey k
  match db key with
  | none => (some (.notFound key), db)
  | some value =>
    if value ≠ oldValue then (some (.mismatch key), db)
    else (none, db.setKey key newValue)

/-- `Cleanup`: `SCAN 0 MATCH <KeyPath>.*` and DEL every matched key. -/
def cleanup (s : RedisStateStore) (db : RDB) : RDB :=
  fun k => if globMatch (s.keyPath ++ ".*").toList k.toList then none else db k

end RedisStateStore

/-! ## Data store (`core/redis-datastore`, `RedisDataStore`) -/

structure RedisDataStore where
  bucketName : String
deriving DecidableEq

/-- `getPath` produces `<bucket>.<key>.value`. -/
def getPath (bucket key : String) : String :=
  bucket ++ "." ++ (key ++ ".value")

namespace RedisDataStore

/-- `Configure(flowName, requestId)` sets `bucketName = "core-<flow>-<req>"`. -/
def configure (flowName requestId : String) : RedisDataStore :=
  { bucketName := "core-" ++ flowName ++ "-" ++ requestId }

/-- `Set(key, value)`: redis SET at `getPath(bucketName, key)`. -/
def setValue (d : RedisDataStore) (k v : String) (db : RDB) : RDB :=
  db.setKey (getPath d.bucketName k) v

/-- `Get(key)`: redis GET at `getPath(bucketName, key)`. -/
def getValue (d : RedisDataStore) (k : String) (db : RDB) : Option String :=
  db (getPath d.bucketName k)

/-- `Del(key)`: redis DEL at `getPath(bucketName, key)`. -/
def delValue (d : RedisDataStore) (k : String) (db : RDB) : RDB :=
  db.delKey (getPath d.bucketName k)

/-- `Cleanup`: `SCAN 0 MATCH <bucketName>.*` and DEL every matched key. -/
def cleanup (d : RedisDataStore) (db : RDB) : RDB :=
  fun k => if globMatch (d.bucketName ++ ".*").toList k.toList then none else db k

end RedisDataStore

/-! ## Flow runtime (`runtime/flow_runtime.go`) -/

def InternalRequestQueueInitial : String := "goflow-internal-request"
def FlowKeyInitial : String := "goflow-flow"
def WorkerKeyInitial : String := "goflow-worker"

/-- `gocron.Every(GoFlowRegisterInterval).Second()` period, in seconds. -/
def GoFlowRegisterInterval : Nat := 4
/-- TTL (seconds) for worker and flow registry keys. -/
def RDBKeyTimeOut : Nat := 10

def PartialRequest : String := "PARTIAL"
def NewRequest : String := "NEW"
def PauseRequest : String := "PAUSE"
def ResumeRequest : String := "RESUME"
def StopRequest : String := "STOP"

/-- `runtime.Request`.  Go `[]byte` / `string` conversions are
byte-for-byte, so `Body` is kept as a string here. -/
structure Request where
  flowName : String
  requestId : String
  body : String
  header : List (String × List String)
  rawQuery : String
  query : List (String × List String)
deriving DecidableEq

/-- The queued `Task` (json field tags: flow_name, request_id, body,
header, raw_query, query, request_type). -/
structure Task where
  flowName : String
  requestId : String
  body : String
  header : List (String × List String)
  rawQuery : String
  query : List (String × List String)
  requestType : String
deriving DecidableEq

/-- JSON values a marshalled `Task` contains: strings and string-list
maps (`map[string][]string` marshals to an object of arrays). -/
inductive JVal where
  | jstr (v : String)
  | jmap (v : List (String × List String))
deriving DecidableEq

/-- `json.Marshal` of a `Task`, at the level of the field list of the
resulting JSON object (field order follows the struct tags).  Lean
`String` fields stand for valid-Unicode Go strings, on which
`json.Marshal` / `json.Unmarshal` are lossless (escaping is inverted
exactly by the decoder); the coercion `json.Marshal` applies to a Go
string holding invalid UTF-8 — every invalid byte becomes U+FFFD — is
modelled at byte level by `sanitizeUtf8` below. -/
def marshalTask (t : Task) : List (String × JVal) :=
  [("flow_name", .jstr t.flowName),
   ("request_id", .jstr t.requestId),
   ("body", .jstr t.body),
   ("header", .jmap t.header),
   ("raw_query", .jstr t.rawQuery),
   ("query", .jmap t.query),
   ("request_type", .jstr t.requestType)]

/-- Read a string field the way `json.Unmarshal` fills a `string`
struct field: an absent field keeps the zero value, a field of the
wrong type is an unmarshal error. -/
def jsonStr (fields : List (String × JVal)) (k : String) : Option String :=
  match fields.lookup k with
  | some (.jstr s) => some s
  | some (.jmap _) => none
  | none => some ""

/-- Read a `map[string][]string` field; absent fields yield a nil map. -/
def jsonMap (fields : List (String × JVal)) (k : String) :
    Option (List (String × List String)) :=
  match fields.lookup k with
  | some (.jmap m) => some m
  | some (.jstr _) => none
  | none => some []

/-- `json.Unmarshal` of a task payload (`none` = unmarshal error). -/
def unmarshalTask (fields : List (String × JVal)) : Option Task := do
  let flowName ← jsonStr fields "flow_name"
  let requestId ← jsonStr fields "request_id"
  let body ← jsonStr fields "body"
  let header ← jsonMap fields "header"
  let rawQuery ← jsonStr fields "raw_query"
  let query ← jsonMap fields "query"
  let requestType ← jsonStr fields "request_type"
  pure { flowName := flowName, requestId := requestId, body := body,
         header := header, rawQuery := rawQuery, query := query,
         requestType := requestType }

/-- `makeRequestFromTask`. -/
def makeRequestFromTask (task : Task) : Request :=
  { flowName := task.flowName
    requestId := task.requestId
    body := task.body
    header := task.header
    rawQuery := task.rawQuery
    query := task.query }

/-- The task `Execute(flowName, request)` marshals and publishes on the
primary queue of `flowName` (request type NEW). -/
def FlowRuntime.executeTask (flowName : String) (request : Request) : Task :=
  { flowName := flowName
    requestId := request.requestId
    body := request.body
    header := request.header
    rawQuery := request.rawQuery
    query := request.query
    requestType := NewRequest }

/-- The task `EnqueuePartialRequest(pr)` marshals and publishes
(request type PARTIAL). -/
def FlowRuntime.partialTask (pr : Request) : Task :=
  { flowName := pr.flowName
    requestId := pr.requestId
    body := pr.body
    header := pr.header
    rawQuery := pr.rawQuery
    query := pr.query
    requestType := PartialRequest }

/-- `internalRequestQueueId`. -/
def FlowRuntime.internalRequestQueueId (flowName : String) : String :=
  InternalRequestQueueInitial ++ ":" ++ flowName

/-! ## Task queue initialization (`initializeTaskQueues`)

For one registered flow the loop opens the primary queue and
`RetryQueueCount` push queues, chains them with `SetPushQueue`, starts
every queue consuming with `StartConsuming(10, time.Second)`, adds
`Concurrency` consumers to the primary queue (loop over
`fRuntime.Concurrency`) and one consumer to each push queue (loop over
`fRuntime.RetryQueueCount`, indexing `pushQueues[idx]`). -/

/-- Everything `initializeTaskQueues` does to one queue: its name, the
queue `SetPushQueue` points it at, the `StartConsuming` arguments
(prefetch batch size, poll duration in seconds), and how many times
`AddConsumer` was called on it. -/
structure QueueSetup where
  qname : String
  pushTarget : Option String
  consuming : Option (Nat × Nat)
  consumerCount : Nat
deriving DecidableEq

/-- Per-flow queue setup performed by `initializeTaskQueues`: element 0
is the primary queue, element `i + 1` is push queue `i`. -/
def FlowRuntime.initializeTaskQueuesFlow (flowName : String)
    (retryQueueCount concurrency : Nat) : List QueueSetup :=
  let baseQId := FlowRuntime.internalRequestQueueId flowName
  let pushQId : Nat → String := fun idx => baseQId ++ "-push-" ++ toString idx
  let primary : QueueSetup :=
    { qname := baseQId
      pushTarget := if retryQueueCount = 0 then none else some (pushQId 0)
      consuming := some (10, 1)
      consumerCount := concurrency }
  let pushQ : Nat → QueueSetup := fun idx =>
    { qname := pushQId idx
      pushTarget := if idx + 1 = retryQueueCount then none else some (pushQId (idx + 1))
      consuming := some (10, 1)
      consumerCount := 1 }
  primary :: (List.range retryQueueCount).map pushQ

/-! ## Request dispatch and queue consumer (`handleRequest`, `Consume`) -/

/-- The five typed request handlers `handleRequest` can dispatch to. -/
inductive HandlerKind where
  | partialH
  | newH
  | pauseH
  | resumeH
  | stopH
deriving DecidableEq

/-- `handleRequest(request, requestType)`: the switch over the request
type.  The handlers themselves run executor logic abstracted here as
`results`; the default branch invokes no handler and returns the
invalid-request error.  Returns which handler ran (if any) and the
error result. -/
def FlowRuntime.handleRequest (results : HandlerKind → Except String Unit)
    (requestType : String) : Option HandlerKind × Except String Unit :=
  if requestType = PartialRequest then (some .partialH, results .partialH)
  else if requestType = NewRequest then (some .newH, results .newH)
  else if requestType = PauseRequest then (some .pauseH, results .pauseH)
  else if requestType = ResumeRequest then (some .resumeH, results .resumeH)
  else if requestType = StopRequest then (some .stopH, results .stopH)
  else (none, .error ("invalid request received with type " ++ requestType))

/-- Disposition of an rmq delivery.  rmq allows a single disposition
per delivery: `Push` moves the payload to the push queue, after which
`Ack` finds nothing to remove and returns an error, leaving the
delivery pushed. -/
inductive DeliveryState where
  | unacked
  | acked
  | pushed
deriving DecidableEq

/-- What one `Consume(message)` call did: the delivery's final
disposition, which handler (if any) the task was dispatched to, the
request handed to it, and the log lines emitted. -/
structure ConsumeResult where
  delivery : DeliveryState
  invoked : Option HandlerKind
  dispatched : Option Request
  logs : List String
deriving DecidableEq

/-- `Consume(message)`.  `payload` is the delivery payload (as the
field list of its JSON object), `results` the outcome of each typed
handler, `pushOk` whether the redis `Push` operation itself succeeds.
On unmarshal failure: log, `Push`, return (no `Ack`).  On handler
error: log, `Push`, but then fall through to `Ack` — which fails on
the already-pushed delivery and is logged.  On success: `Ack`. -/
def FlowRuntime.consume (results : HandlerKind → Except String Unit)
    (pushOk : Bool) (payload : List (String × JVal)) : ConsumeResult :=
  match unmarshalTask payload with
  | none =>
    if pushOk then
      { delivery := .pushed, invoked := none, dispatched := none
        logs := ["[goflow] rejecting task for parse failure"] }
    else
      { delivery := .unacked, invoked := none, dispatched := none
        logs := ["[goflow] rejecting task for parse failure",
                 "[goflow] failed to push message to retry queue"] }
  | some task =>
    let request := makeRequestFromTask task
    let handled := FlowRuntime.handleRequest results task.requestType
    match handled.2 with
    | .error e =>
      if pushOk then
        { delivery := .pushed, invoked := handled.1, dispatched := some request
          logs := ["[goflow] rejecting task for failure, error " ++ e,
                   "[goflow] failed to acknowledge message"] }
      else
        { delivery := .unacked, invoked := handled.1, dispatched := some request
          logs := ["[goflow] rejecting task for failure, error " ++ e,
                   "[goflow] failed to push message to retry queue"] }
    | .ok _ =>
      { delivery := .acked, invoked := handled.1, dispatched := some request
        logs := [] }

/-! ## Worker registry (`StartRuntime`, `saveWorkerDetails`,
`deleteWorkerDetails`, `saveFlowDetails`) -/

/-- A registry value together with its TTL in seconds (`none` = no
expiry). -/
structure TimedEntry where
  value : String
  ttlSeconds : Option Nat
deriving DecidableEq

/-- The redis keyspace used by the worker registry. -/
def RegistryDB : Type := String → Option TimedEntry

def RegistryDB.setKey (db : RegistryDB) (k : String) (e : TimedEntry) : RegistryDB :=
  fun x => if x = k then some e else db x

def RegistryDB.delKey (db : RegistryDB) (k : String) : RegistryDB :=
  fun x => if x = k then none else db x

def RegistryDB.empty : RegistryDB := fun _ => none

/-- The key a worker heartbeats under. -/
def workerKey (workerId : String) : String :=
  WorkerKeyInitial ++ ":" ++ workerId

/-- The key a flow descriptor is republished under. -/
def flowKey (flowName : String) : String :=
  FlowKeyInitial ++ ":" ++ flowName

/-- `saveWorkerDetails`: SET `goflow-worker:<id>` with TTL
`RDBKeyTimeOut` seconds. -/
def saveWorkerDetails (workerId workerJson : String) (db : RegistryDB) : RegistryDB :=
  db.setKey (workerKey workerId) ⟨workerJson, some RDBKeyTimeOut⟩

/-- `deleteWorkerDetails`: DEL `goflow-worker:<id>`. -/
def deleteWorkerDetails (workerId : String) (db : RegistryDB) : RegistryDB :=
  db.delKey (workerKey workerId)

/-- `saveFlowDetails`: SET `goflow-flow:<name>` with TTL
`RDBKeyTimeOut` seconds for every exported flow descriptor. -/
def saveFlowDetails (flows : List (String × String)) (db : RegistryDB) : RegistryDB :=
  flows.foldl (fun acc fd => acc.setKey (flowKey fd.1) ⟨fd.2, some RDBKeyTimeOut⟩) db

/-- One run of `StartRuntime`'s `registerDetails` closure: in worker
mode the worker key is written, otherwise it is deleted; in both cases
every registered flow's exported descriptor is written. -/
def registerDetails (workerMode : Bool) (workerId workerJson : String)
    (flowDetails : List (String × String)) (db : RegistryDB) : RegistryDB :=
  saveFlowDetails flowDetails
    (if workerMode then saveWorkerDetails workerId workerJson db
     else deleteWorkerDetails workerId db)

/-- `StartRuntime`'s schedule: `registerDetails` runs once immediately,
then from a `gocron` job every `GoFlowRegisterInterval` seconds. -/
structure RegisterSchedule where
  immediateRun : Bool
  intervalSeconds : Nat
deriving DecidableEq

def FlowRuntime.startRuntimeSchedule : RegisterSchedule :=
  { immediateRun := true, intervalSeconds := GoFlowRegisterInterval }

/-! ## Flow registration (`Register`) -/

/-- `Register(flows)`.  `H` abstracts `FlowDefinitionHandler`; the
registry and the argument map are association lists of flow name and
handler.  Returns the error result together with the registry
afterwards.  The duplicate check walks the whole argument map before
any flow is added.  When in worker mode, `initializeTaskQueues` runs
after the flows were added and may fail (`queueInitOk`). -/
def FlowRuntime.register {H : Type} (connInitialized : Bool)
    (registry : List (String × H)) (flows : List (String × H))
    (workerMode : Bool) (queueInitOk : Bool) :
    Except String Unit × List (String × H) :=
  if ¬ connInitialized then
    (.error "unable to register flows, rmq connection not initialized", registry)
  else if flows.isEmpty then (.ok (), registry)
  else if flows.any (fun nf => (registry.lookup nf.1).isSome) then
    (.error "flow already registered", registry)
  else
    let registry2 := registry ++ flows
    if workerMode ∧ ¬ queueInitOk then
      (.error "failed to initialize task queues", registry2)
    else (.ok (), registry2)

/-! ## Partial-request publication (`EnqueuePartialRequest`) -/

/-- `EnqueuePartialRequest(pr)`.  `taskQueues` is the runtime's
`map[string]rmq.Queue`; a missing entry is the zero-value nil
interface, and calling `PublishBytes` on it panics (modelled as the
outer `none`).  When the queue exists, exactly one PARTIAL task is
published; publication failure (`publishOk = false`) is returned as an
error. -/
def FlowRuntime.enqueuePartialRequest (taskQueues : String → Option Unit)
    (publishOk : Bool) (pr : Request) : Option (Except String Task) :=
  match taskQueues pr.flowName with
  | none => none
  | some _ =>
    if publishOk then some (.ok (FlowRuntime.partialTask pr))
    else some (.error "failed to publish task")

/-! ## UTF-8 coercion of `json.Marshal` (byte level)

`Request.Body` is a Go `[]byte`; `Execute` / `EnqueuePartialRequest`
copy it into the task's `Body` string byte-for-byte, `json.Marshal`
writes that string coercing invalid UTF-8 to U+FFFD (Go's
`utf8.DecodeRuneInString` returns `RuneError` with size 1 on any
invalid byte, and the encoder emits the replacement rune for it),
`json.Unmarshal` restores exactly the encoded bytes, and
`makeRequestFromTask` converts back to `[]byte`.  Bytes are modelled as
`Nat` values 0–255. -/

/-- The UTF-8 encoding of U+FFFD, written for each invalid byte. -/
def utf8Repl : List Nat := [0xEF, 0xBF, 0xBD]

/-- Lower bound Go's `utf8` accept table imposes on the second byte of
a multi-byte sequence starting with `b0` (rules out overlong forms). -/
def utf8B1lo (b0 : Nat) : Nat :=
  if b0 = 0xE0 then 0xA0 else if b0 = 0xF0 then 0x90 else 0x80

/-- Upper bound on the second byte (rules out surrogates and
code points above U+10FFFF). -/
def utf8B1hi (b0 : Nat) : Nat :=
  if b0 = 0xED then 0x9F else if b0 = 0xF4 then 0x8F else 0xBF

/-- A partially consumed multi-byte sequence: the bytes seen so far,
how many continuation bytes are still required, and the acceptable
range for the next byte (the first continuation byte has the
per-leading-byte range, later ones `0x80–0xBF`). -/
structure SanPending where
  seen : List Nat
  need : Nat
  lo : Nat
  hi : Nat
deriving DecidableEq

/-- One U+FFFD per flushed byte: when a pending sequence turns out
invalid, `utf8.DecodeRuneInString` consumes only its leading byte
(one replacement), and each already-seen continuation byte, lying in
`0x80–0xBF`, is itself an invalid leading byte (one replacement each,
combining with nothing that follows). -/
def replFlush : List Nat → List Nat
  | [] => []
  | _ :: rest => utf8Repl ++ replFlush rest

/-- The byte sequence `json.Marshal` effectively transmits for a Go
string with these bytes: valid UTF-8 sequences pass through, every
byte at which decoding fails becomes the U+FFFD bytes, one byte at a
time as `utf8.DecodeRuneInString` consumes them. -/
def sanAux : Option SanPending → List Nat → List Nat
  | none, [] => []
  | some st, [] => replFlush st.seen
  | none, b :: rest =>
    if b < 0x80 then b :: sanAux none rest
    else if 0xC2 ≤ b ∧ b ≤ 0xDF then
      sanAux (some ⟨[b], 1, utf8B1lo b, utf8B1hi b⟩) rest
    else if 0xE0 ≤ b ∧ b ≤ 0xEF then
      sanAux (some ⟨[b], 2, utf8B1lo b, utf8B1hi b⟩) rest
    else if 0xF0 ≤ b ∧ b ≤ 0xF4 then
      sanAux (some ⟨[b], 3, utf8B1lo b, utf8B1hi b⟩) rest
    else utf8Repl ++ sanAux none rest
  | some st, b :: rest =>
    if st.lo ≤ b ∧ b ≤ st.hi then
      if st.need = 1 then st.seen ++ b :: sanAux none rest
      else sanAux (some ⟨st.seen ++ [b], st.need - 1, 0x80, 0xBF⟩) rest
    else
      replFlush st.seen ++
      (if b < 0x80 then b :: sanAux none rest
       else if 0xC2 ≤ b ∧ b ≤ 0xDF then
         sanAux (some ⟨[b], 1, utf8B1lo b, utf8B1hi b⟩) rest
       else if 0xE0 ≤ b ∧ b ≤ 0xEF then
         sanAux (some ⟨[b], 2, utf8B1lo b, utf8B1hi b⟩) rest
       else if 0xF0 ≤ b ∧ b ≤ 0xF4 then
         sanAux (some ⟨[b], 3, utf8B1lo b, utf8B1hi b⟩) rest
       else utf8Repl ++ sanAux none rest)

/-- See `sanAux`. -/
def sanitizeUtf8 (bs : List Nat) : List Nat := sanAux none bs

/-- Go's `utf8.Valid`, as the same automaton: every byte is consumed by
a well-formed sequence and no sequence is left open at the end. -/
def validAux : Option SanPending → List Nat → Bool
  | none, [] => true
  | some _, [] => false
  | none, b :: rest =>
    if b < 0x80 then validAux none rest
    else if 0xC2 ≤ b ∧ b ≤ 0xDF then
      validAux (some ⟨[b], 1, utf8B1lo b, utf8B1hi b⟩) rest
    else if 0xE0 ≤ b ∧ b ≤ 0xEF then
      validAux (some ⟨[b], 2, utf8B1lo b, utf8B1hi b⟩) rest
    else if 0xF0 ≤ b ∧ b ≤ 0xF4 then
      validAux (some ⟨[b], 3, utf8B1lo b, utf8B1hi b⟩) rest
    else false
  | some st, b :: rest =>
    if st.lo ≤ b ∧ b ≤ st.hi then
      if st.need = 1 then validAux none rest
      else validAux (some ⟨st.seen ++ [b], st.need - 1, 0x80, 0xBF⟩) rest
    else false

/-- See `validAux`. -/
def utf8Valid (bs : List Nat) : Bool := validAux none bs

/-- `string(request.Body)` in `Execute` / `EnqueuePartialRequest`: Go
byte-to-string conversion preserves the bytes. -/
def goStringOfBytes (bs : List Nat) : List Nat := bs

/-- `[]byte(task.Body)` in `makeRequestFromTask`: byte-preserving. -/
def goBytesOfString (bs : List Nat) : List Nat := bs

/-- The body bytes a consumer recovers: `Execute` /
`EnqueuePartialRequest` build the task (`string(request.Body)`),
`json.Marshal` writes it with the UTF-8 coercion, `Consume`'s
`json.Unmarshal` reads the same bytes back, `makeRequestFromTask`
restores `[]byte`. -/
def bodyBytesRoundTrip (body : List Nat) : List Nat :=
  goBytesOfString (sanitizeUtf8 (goStringOfBytes body))

/-! ## Concrete sample data for witnesses -/

/-- A sample task with request type NEW. -/
def sampleNewTask : Task :=
  { flowName := "wf", requestId := "r1", body := "b", header := [],
    rawQuery := "", query := [], requestType := "NEW" }

/-- A sample task with an unknown request type. -/
def sampleBogusTask : Task :=
  { flowName := "wf", requestId := "r1", body := "", header := [],
    rawQuery := "", query := [], requestType := "BOGUS" }

/-- A sample request. -/
def sampleRequest : Request :=
  { flowName := "wf", requestId := "r1", body := "B",
    header := [("h", ["v1", "v2"])], rawQuery := "a=1",
    query := [("a", ["1"])] }

/-! # Helper lemmas -/

/-- A pattern that is a single trailing `*` matches any subject. -/
theorem toksMatch_star (s : List Char) : globToksMatch [GlobTok.star] s = true := by
  induction s with
  | nil => rfl
  | cons c cs ih => simp [globToksMatch, globStar] at ih ⊢; exact ih

/-- A run of literal tokens consumes exactly the matching characters. -/
theorem toksMatch_lit_append (L : List Char) (ts : List GlobTok) (s : List Char) :
    globToksMatch (L.map GlobTok.lit ++ ts) (L ++ s) = globToksMatch ts s := by
  induction L with
  | nil => simp
  | cons c L ih => simp [globToksMatch, tokMatch, ih]

/-- A pattern segment free of glob metacharacters lexes to literal
tokens. -/
theorem lexAux_literal (L rest : List Char)
    (h : ∀ c ∈ L, c ≠ '*' ∧ c ≠ '?' ∧ c ≠ '[' ∧ c ≠ '\\') :
    lexAux .out (L ++ rest) = L.map GlobTok.lit ++ lexAux .out rest := by
  induction L with
  | nil => simp
  | cons c L ih =>
    have hc := h c (List.mem_cons_self c L)
    have hL : ∀ x ∈ L, x ≠ '*' ∧ x ≠ '?' ∧ x ≠ '[' ∧ x ≠ '\\' :=
      fun x hx => h x (List.mem_cons_of_mem c hx)
    simp [lexAux, hc.1, hc.2.1, hc.2.2.1, hc.2.2.2, ih hL]

/-- Unfolds `globLiteral` to the per-character disequalities. -/
theorem globLiteral_chars (s : String) (h : globLiteral s = true) :
    ∀ c ∈ s.data, c ≠ '*' ∧ c ≠ '?' ∧ c ≠ '[' ∧ c ≠ '\\' := by
  intro c hc
  exact of_decide_eq_true (List.all_eq_true.1 h c hc)

/-- Keys of the form `<stem>.<suffix>` are matched by the cleanup
pattern `<stem>.*` when the stem contains no glob metacharacters. -/
theorem globMatch_cleanup_literal (stem suffix : String)
    (h : ∀ c ∈ stem.data, c ≠ '*' ∧ c ≠ '?' ∧ c ≠ '[' ∧ c ≠ '\\') :
    globMatch (stem ++ ".*").toList (stem ++ "." ++ suffix).toList = true := by
  have hL : ∀ c ∈ stem.data ++ ['.'], c ≠ '*' ∧ c ≠ '?' ∧ c ≠ '[' ∧ c ≠ '\\' := by
    intro c hc
    rcases List.mem_append.1 hc with h1 | h2
    · exact h c h1
    · simp at h2
      subst h2
      decide
  have hp : (stem ++ ".*").data = (stem.data ++ ['.']) ++ ['*'] := by
    rw [String.data_append]
    simp [List.append_assoc]
  have hs : (stem ++ "." ++ suffix).data = (stem.data ++ ['.']) ++ suffix.data := by
    rw [String.data_append, String.data_append]
  show globMatch (stem ++ ".*").data (stem ++ "." ++ suffix).data = true
  rw [hp, hs]
  show globToksMatch (lexAux .out ((stem.data ++ ['.']) ++ ['*'])) _ = true
  rw [lexAux_literal _ _ hL]
  have hstar : lexAux .out ['*'] = [GlobTok.star] := by decide
  rw [hstar, toksMatch_lit_append, toksMatch_star]

/-- Invariant of the sanitizing automaton: on input it accepts as
valid, it reproduces the pending bytes followed by the input. -/
theorem sanAux_eq_of_valid :
    ∀ (bs : List Nat) (st : Option SanPending), validAux st bs = true →
      sanAux st bs = (match st with | none => [] | some p => p.seen) ++ bs := by
  intro bs
  induction bs with
  | nil =>
    intro st hv
    cases st with
    | none => rfl
    | some p => simp [validAux] at hv
  | cons b rest ih =>
    intro st hv
    cases st with
    | none =>
      by_cases h1 : b < 0x80
      · simp only [validAux, if_pos h1] at hv
        simp only [sanAux, if_pos h1]
        rw [ih none hv]
        simp
      · by_cases h2 : 0xC2 ≤ b ∧ b ≤ 0xDF
        · simp only [validAux, if_neg h1, if_pos h2] at hv
          simp only [sanAux, if_neg h1, if_pos h2]
          rw [ih _ hv]
          simp
        · by_cases h3 : 0xE0 ≤ b ∧ b ≤ 0xEF
          · simp only [validAux, if_neg h1, if_neg h2, if_pos h3] at hv
            simp only [sanAux, if_neg h1, if_neg h2, if_pos h3]
            rw [ih _ hv]
            simp
          · by_cases h4 : 0xF0 ≤ b ∧ b ≤ 0xF4
            · simp only [validAux, if_neg h1, if_neg h2, if_neg h3,
                if_pos h4] at hv
              simp only [sanAux, if_neg h1, if_neg h2, if_neg h3, if_pos h4]
              rw [ih _ hv]
              simp
            · simp [validAux, h1, h2, h3, h4] at hv
    | some p =>
      by_cases hr : p.lo ≤ b ∧ b ≤ p.hi
      · by_cases hn : p.need = 1
        · simp only [validAux, if_pos hr, if_pos hn] at hv
          simp only [sanAux, if_pos hr, if_pos hn]
          rw [ih none hv]
          simp
        · simp only [validAux, if_pos hr, if_neg hn] at hv
          simp only [sanAux, if_pos hr, if_neg hn]
          rw [ih _ hv]
          simp
      · simp [validAux, hr] at hv

/-- On valid UTF-8 the marshaller's coercion is the identity. -/
theorem sanitizeUtf8_eq_of_valid (bs : List Nat) (h : utf8Valid bs = true) :
    sanitizeUtf8 bs = bs := by
  have h2 := sanAux_eq_of_valid bs none h
  simpa [sanitizeUtf8] using h2

/-- Worker keys and flow keys live in disjoint parts of the keyspace. -/
theorem flowKey_ne_workerKey (f w : String) : flowKey f ≠ workerKey w := by
  intro h
  have h2 := congrArg String.data h
  cases f; cases w
  simp [flowKey, workerKey, FlowKeyInitial, WorkerKeyInitial, String.data] at h2

/-- `flowKey` is injective. -/
theorem flowKey_injective (a b : String) (h : flowKey a = flowKey b) : a = b := by
  cases a; cases b
  have h2 := congrArg String.data h
  simp [flowKey, FlowKeyInitial, String.data] at h2
  exact congrArg String.mk h2

/-- `saveFlowDetails` does not touch keys outside the flow entries it
writes. -/
theorem saveFlowDetails_untouched (flows : List (String × String)) (db : RegistryDB)
    (k : String) (h : ∀ fd ∈ flows, flowKey fd.1 ≠ k) :
    saveFlowDetails flows db k = db k := by
  induction flows generalizing db with
  | nil => rfl
  | cons fd rest ih =>
    have hk : flowKey fd.1 ≠ k := h fd (List.mem_cons_self fd rest)
    have hr : ∀ fd2 ∈ rest, flowKey fd2.1 ≠ k :=
      fun fd2 hm => h fd2 (List.mem_cons_of_mem fd hm)
    show saveFlowDetails rest (db.setKey (flowKey fd.1) ⟨fd.2, some RDBKeyTimeOut⟩) k = db k
    rw [ih _ hr]
    have hk2 : k ≠ flowKey fd.1 := fun hx => hk hx.symm
    simp [RegistryDB.setKey, hk2]

/-- With distinct flow names, `saveFlowDetails` stores each descriptor
under its flow's key. -/
theorem saveFlowDetails_stores (flows : List (String × String)) (db : RegistryDB)
    (f d : String) (hnd : (flows.map Prod.fst).Nodup) (hm : (f, d) ∈ flows) :
    saveFlowDetails flows db (flowKey f) = some ⟨d, some RDBKeyTimeOut⟩ := by
  induction flows generalizing db with
  | nil => cases hm
  | cons fd rest ih =>
    rcases List.mem_cons.1 hm with heq | hmem
    · subst heq
      have hnotin : f ∉ rest.map Prod.fst := by
        simpa using (List.nodup_cons.1 hnd).1
      have hr : ∀ fd2 ∈ rest, flowKey fd2.1 ≠ flowKey f := by
        intro fd2 hm2 hk
        exact hnotin (by
          have : fd2.1 = f := flowKey_injective _ _ hk
          exact this ▸ List.mem_map_of_mem Prod.fst hm2)
      show saveFlowDetails rest (db.setKey (flowKey f) ⟨d, some RDBKeyTimeOut⟩)
          (flowKey f) = some ⟨d, some RDBKeyTimeOut⟩
      rw [saveFlowDetails_untouched rest _ _ hr]
      simp [RegistryDB.setKey]
    · exact ih _ (List.nodup_cons.1 hnd).2 hmem

/-- `json.Unmarshal` inverts `json.Marshal` on task payloads. -/
theorem unmarshalTask_marshalTask (t : Task) :
    unmarshalTask (marshalTask t) = some t := by
  cases t; rfl

/-! # Claim theorems -/

/-- C1: on a configured state store, `Update(key, oldValue, newValue)`
is a compare-and-set: it fails with the not-found error when the
namespaced key is absent, fails with the mismatch error when the stored
value differs from `oldValue`, and otherwise sets the key to `newValue`
with no error; in both error cases the keyspace is unchanged. -/
theorem stateStore_update_cas_spec (flow req k oldValue newValue : String) (db : RDB) :
    (db ((RedisStateStore.configure flow req).fullKey k) = none →
      (RedisStateStore.configure flow req).update k oldValue newValue db
        = (some (.notFound ((RedisStateStore.configure flow req).fullKey k)), db))
    ∧ (∀ v, db ((RedisStateStore.configure flow req).fullKey k) = some v →
      v ≠ oldValue →
      (RedisStateStore.configure flow req).update k oldValue newValue db
        = (some (.mismatch ((RedisStateStore.configure flow req).fullKey k)), db))
    ∧ (db ((RedisStateStore.configure flow req).fullKey k) = some oldValue →
      ((RedisStateStore.configure flow req).update k oldValue newValue db).1 = none
      ∧ ∀ x, ((RedisStateStore.configure flow req).update k oldValue newValue db).2 x
          = if x = (RedisStateStore.configure flow req).fullKey k then some newValue
            else db x) := by
  refine ⟨?_, ?_, ?_⟩
  · intro h
    simp [RedisStateStore.update, h]
  · intro v hv hne
    simp [RedisStateStore.update, hv, hne]
  · intro h
    refine ⟨?_, fun x => ?_⟩ <;> simp [RedisStateStore.update, h, RDB.setKey]

/-- Each branch of the CAS theorem exercised at a concrete keyspace. -/
theorem stateStore_update_cas_witness :
    (RedisStateStore.configure "f" "r").update "k" "a" "b" RDB.empty
      = (some (.notFound "core.f.r.k"), RDB.empty)
    ∧ (RedisStateStore.configure "f" "r").update "k" "a" "b"
        (RDB.empty.setKey "core.f.r.k" "z")
      = (some (.mismatch "core.f.r.k"), RDB.empty.setKey "core.f.r.k" "z")
    ∧ ((RedisStateStore.configure "f" "r").update "k" "a" "b"
        (RDB.empty.setKey "core.f.r.k" "a")).1 = none
    ∧ ((RedisStateStore.configure "f" "r").update "k" "a" "b"
        (RDB.empty.setKey "core.f.r.k" "a")).2 "core.f.r.k" = some "b" := by
  have h1 := (stateStore_update_cas_spec "f" "r" "k" "a" "b" RDB.empty).1 rfl
  have h2 := (stateStore_update_cas_spec "f" "r" "k" "a" "b"
      (RDB.empty.setKey "core.f.r.k" "z")).2.1 "z" (by decide) (by decide)
  have h3 := (stateStore_update_cas_spec "f" "r" "k" "a" "b"
      (RDB.empty.setKey "core.f.r.k" "a")).2.2 (by decide)
  refine ⟨h1, h2, h3.1, ?_⟩
  rw [h3.2 "core.f.r.k"]
  decide

/-- C4: after `Configure(flow, request)`, every state-store key `k` is
read and written at `core.<flow>.<request>.<k>` and every data-store
key `k` is read and written at `core-<flow>-<request>.<k>.value`. -/
theorem store_key_paths_spec (flow req k v : String) (db : RDB) :
    (RedisStateStore.configure flow req).fullKey k
      = "core." ++ flow ++ "." ++ req ++ "." ++ k
    ∧ (RedisStateStore.configure flow req).getValue k db
      = db ("core." ++ flow ++ "." ++ req ++ "." ++ k)
    ∧ (∀ x, (RedisStateStore.configure flow req).setValue k v db x
        = if x = "core." ++ flow ++ "." ++ req ++ "." ++ k then some v else db x)
    ∧ getPath (RedisDataStore.configure flow req).bucketName k
      = "core-" ++ flow ++ "-" ++ req ++ "." ++ k ++ ".value"
    ∧ (RedisDataStore.configure flow req).getValue k db
      = db ("core-" ++ flow ++ "-" ++ req ++ "." ++ k ++ ".value")
    ∧ (∀ x, (RedisDataStore.configure flow req).setValue k v db x
        = if x = "core-" ++ flow ++ "-" ++ req ++ "." ++ k ++ ".value" then some v
          else db x) := by
  have hdata : getPath (RedisDataStore.configure flow req).bucketName k
      = "core-" ++ flow ++ "-" ++ req ++ "." ++ k ++ ".value" := by
    simp [getPath, RedisDataStore.configure, String.append_assoc]
  refine ⟨rfl, rfl, fun x => rfl, hdata, ?_, fun x => ?_⟩
  · simp [RedisDataStore.getValue, hdata]
  · simp [RedisDataStore.setValue, RDB.setKey, hdata]

/-- C7 as stated is false: the `SCAN MATCH` pattern `core.<flow>.<req>.*`
interprets glob metacharacters inside the names.  For flow `a[b]` the
pattern's `[b]` is a character class matching only `b`, so it does not
match the stored key `core.a[b].r.k`: the key survives `Cleanup`. -/
theorem store_cleanup_claim_cex :
    (RedisStateStore.configure "a[b]" "r").cleanup
        (RDB.empty.setKey ((RedisStateStore.configure "a[b]" "r").fullKey "k") "v")
        ((RedisStateStore.configure "a[b]" "r").fullKey "k") = some "v" := by
  decide

/-- C7 (amended): state-store `Cleanup` deletes every key under the
configured namespace `core.<flow>.<req>` provided the flow and request
names contain no Redis glob metacharacter (`*`, `?`, `[`, `\`), and it
is idempotent; the data store's `Cleanup` behaves the same over
`core-<flow>-<req>`. -/
theorem store_cleanup_spec (flow req suffix : String) (db db2 : RDB)
    (hf : globLiteral flow = true) (hr : globLiteral req = true) :
    (RedisStateStore.configure flow req).cleanup db
        ("core." ++ flow ++ "." ++ req ++ "." ++ suffix) = none
    ∧ (RedisStateStore.configure flow req).cleanup
        ((RedisStateStore.configure flow req).cleanup db)
      = (RedisStateStore.configure flow req).cleanup db
    ∧ (RedisDataStore.configure flow req).cleanup db2
        ("core-" ++ flow ++ "-" ++ req ++ "." ++ suffix) = none
    ∧ (RedisDataStore.configure flow req).cleanup
        ((RedisDataStore.configure flow req).cleanup db2)
      = (RedisDataStore.configure flow req).cleanup db2 := by
  have hflow := globLiteral_chars flow hf
  have hreq := globLiteral_chars req hr
  have hcore : ∀ c ∈ "core.".data, c ≠ '*' ∧ c ≠ '?' ∧ c ≠ '[' ∧ c ≠ '\\' := by
    decide
  have hcored : ∀ c ∈ "core-".data, c ≠ '*' ∧ c ≠ '?' ∧ c ≠ '[' ∧ c ≠ '\\' := by
    decide
  have hdot : ∀ c ∈ ".".data, c ≠ '*' ∧ c ≠ '?' ∧ c ≠ '[' ∧ c ≠ '\\' := by
    decide
  have hdash : ∀ c ∈ "-".data, c ≠ '*' ∧ c ≠ '?' ∧ c ≠ '[' ∧ c ≠ '\\' := by
    decide
  have hstem1 : ∀ c ∈ ("core." ++ flow ++ "." ++ req).data,
      c ≠ '*' ∧ c ≠ '?' ∧ c ≠ '[' ∧ c ≠ '\\' := by
    intro c hc
    rw [String.data_append, String.data_append, String.data_append] at hc
    simp only [List.mem_append] at hc
    rcases hc with ((hc | hc) | hc) | hc
    · exact hcore c hc
    · exact hflow c hc
    · exact hdot c hc
    · exact hreq c hc
  have hstem2 : ∀ c ∈ ("core-" ++ flow ++ "-" ++ req).data,
      c ≠ '*' ∧ c ≠ '?' ∧ c ≠ '[' ∧ c ≠ '\\' := by
    intro c hc
    rw [String.data_append, String.data_append, String.data_append] at hc
    simp only [List.mem_append] at hc
    rcases hc with ((hc | hc) | hc) | hc
    · exact hcored c hc
    · exact hflow c hc
    · exact hdash c hc
    · exact hreq c hc
  refine ⟨?_, ?_, ?_, ?_⟩
  · simp only [RedisStateStore.cleanup, RedisStateStore.configure]
    rw [if_pos (globMatch_cleanup_literal ("core." ++ flow ++ "." ++ req)
      suffix hstem1)]
  · funext x
    simp only [RedisStateStore.cleanup]
    cases hG : globMatch ((RedisStateStore.configure flow req).keyPath
        ++ ".*").toList x.toList <;> simp [hG]
  · simp only [RedisDataStore.cleanup, RedisDataStore.configure]
    rw [if_pos (globMatch_cleanup_literal ("core-" ++ flow ++ "-" ++ req)
      suffix hstem2)]
  · funext x
    simp only [RedisDataStore.cleanup]
    cases hG : globMatch ((RedisDataStore.configure flow req).bucketName
        ++ ".*").toList x.toList <;> simp [hG]

/-- The amended cleanup theorem at metacharacter-free names: the
namespaced key is deleted in both stores. -/
theorem store_cleanup_witness :
    (RedisStateStore.configure "f" "r").cleanup
      (RDB.empty.setKey "core.f.r.x" "v") "core.f.r.x" = none
    ∧ (RedisDataStore.configure "f" "r").cleanup
      (RDB.empty.setKey "core-f-r.x" "v") "core-f-r.x" = none := by
  have h := store_cleanup_spec "f" "r" "x" (RDB.empty.setKey "core.f.r.x" "v")
    (RDB.empty.setKey "core-f-r.x" "v") (by decide) (by decide)
  exact ⟨h.1, h.2.2.1⟩

/-- C3 as stated is false: retry queues do not get `Concurrency`
consumers.  With one retry queue and concurrency 5, the retry queue has
exactly one consumer added (the `AddConsumer` loop for push queues runs
over the queue index, adding one consumer per push queue). -/
theorem initializeTaskQueues_consumers_cex :
    ¬ ∀ q ∈ FlowRuntime.initializeTaskQueuesFlow "f" 1 5, q.consumerCount = 5 := by
  decide

/-- C3 (amended): per registered flow, `initializeTaskQueues` opens the
primary queue `goflow-internal-request:F` and `RetryQueueCount` retry
queues `goflow-internal-request:F-push-0 … -push-(N-1)`, chained
primary → push-0 → … → push-(N-1) via `SetPushQueue`; every queue is
started consuming with prefetch batch size 10 and a 1-second poll; the
primary queue has `Concurrency` consumers added and each retry queue
has exactly one consumer added. -/
theorem initializeTaskQueues_layout_spec (flowName : String) (N C : Nat) :
    (FlowRuntime.initializeTaskQueuesFlow flowName N C).length = N + 1
    ∧ (FlowRuntime.initializeTaskQueuesFlow flowName N C)[0]?
      = some { qname := "goflow-internal-request:" ++ flowName
               pushTarget := if N = 0 then none
                 else some ("goflow-internal-request:" ++ flowName ++ "-push-"
                   ++ toString 0)
               consuming := some (10, 1)
               consumerCount := C }
    ∧ ∀ i, i < N →
      (FlowRuntime.initializeTaskQueuesFlow flowName N C)[i + 1]?
      = some { qname := "goflow-internal-request:" ++ flowName ++ "-push-"
                 ++ toString i
               pushTarget := if i + 1 = N then none
                 else some ("goflow-internal-request:" ++ flowName ++ "-push-"
                   ++ toString (i + 1))
               consuming := some (10, 1)
               consumerCount := 1 } := by
  refine ⟨?_, ?_, fun i hi => ?_⟩
  · simp [FlowRuntime.initializeTaskQueuesFlow]
  · simp only [FlowRuntime.initializeTaskQueuesFlow, List.getElem?_cons_zero]
    rfl
  · simp only [FlowRuntime.initializeTaskQueuesFlow, List.getElem?_cons_succ,
      List.getElem?_map, List.getElem?_range, hi]
    rfl

/-- The amended layout theorem at flow `"wf"`, two retry queues,
concurrency 3: the first retry queue's record. -/
theorem initializeTaskQueues_layout_witness :
    (FlowRuntime.initializeTaskQueuesFlow "wf" 2 3).length = 3
    ∧ (FlowRuntime.initializeTaskQueuesFlow "wf" 2 3)[1]?
      = some { qname := "goflow-internal-request:wf-push-0"
               pushTarget := some "goflow-internal-request:wf-push-1"
               consuming := some (10, 1)
               consumerCount := 1 } := by
  exact ⟨(initializeTaskQueues_layout_spec "wf" 2 3).1,
    (initializeTaskQueues_layout_spec "wf" 2 3).2.2 0 (by decide)⟩

/-- C2: `Consume` parses the payload to a task and dispatches it by
request type; the delivery ends up acknowledged exactly when handling
succeeds; on an unmarshal error or a handler error the delivery is
pushed one step along the retry chain (when the push operation itself
succeeds) and is never acknowledged.  (The fall-through `Ack` after a
successful `Push` in the handler-error path fails on the already-pushed
delivery and leaves its disposition unchanged.) -/
theorem consume_ack_push_spec (results : HandlerKind → Except String Unit)
    (pushOk : Bool) (payload : List (String × JVal)) :
    (unmarshalTask payload = none →
      (FlowRuntime.consume results pushOk payload).delivery ≠ .acked
      ∧ (pushOk = true →
          (FlowRuntime.consume results pushOk payload).delivery = .pushed)
      ∧ (FlowRuntime.consume results pushOk payload).invoked = none)
    ∧ (∀ t, unmarshalTask payload = some t →
      (FlowRuntime.handleRequest results t.requestType).2 = .ok () →
      (FlowRuntime.consume results pushOk payload).delivery = .acked
      ∧ (FlowRuntime.consume results pushOk payload).dispatched
          = some (makeRequestFromTask t)
      ∧ (FlowRuntime.consume results pushOk payload).invoked
          = (FlowRuntime.handleRequest results t.requestType).1)
    ∧ (∀ t e, unmarshalTask payload = some t →
      (FlowRuntime.handleRequest results t.requestType).2 = .error e →
      (FlowRuntime.consume results pushOk payload).delivery ≠ .acked
      ∧ (pushOk = true →
          (FlowRuntime.consume results pushOk payload).delivery = .pushed)
      ∧ (FlowRuntime.consume results pushOk payload).dispatched
          = some (makeRequestFromTask t)
      ∧ (FlowRuntime.consume results pushOk payload).invoked
          = (FlowRuntime.handleRequest results t.requestType).1) := by
  refine ⟨?_, ?_, ?_⟩
  · intro h
    cases hp : pushOk <;> simp [FlowRuntime.consume, h, hp]
  · intro t ht hok
    simp [FlowRuntime.consume, ht, hok]
  · intro t e ht herr
    cases hp : pushOk <;> simp [FlowRuntime.consume, ht, herr, hp]

/-- The consume theorem at a concrete task: a succeeding handler acks,
a failing handler pushes, a malformed payload pushes. -/
theorem consume_ack_push_witness :
    (FlowRuntime.consume (fun _ => .ok ()) true
      (marshalTask sampleNewTask)).delivery = .acked
    ∧ (FlowRuntime.consume (fun _ => .error "boom") true
      (marshalTask sampleNewTask)).delivery = .pushed
    ∧ (FlowRuntime.consume (fun _ => .ok ()) true
      [("flow_name", JVal.jmap [])]).delivery = .pushed := by
  refine ⟨?_, ?_, ?_⟩
  · exact ((consume_ack_push_spec (fun _ => .ok ()) true
      (marshalTask sampleNewTask)).2.1 sampleNewTask rfl rfl).1
  · exact ((consume_ack_push_spec (fun _ => .error "boom") true
      (marshalTask sampleNewTask)).2.2 sampleNewTask "boom" rfl rfl).2.1 rfl
  · exact ((consume_ack_push_spec (fun _ => .ok ()) true
      [("flow_name", JVal.jmap [])]).1 rfl).2.1 rfl

/-- C5: a task whose request type is none of NEW, PARTIAL, PAUSE,
RESUME, STOP is dispatched to no handler, `handleRequest` returns an
error, and the consuming delivery is pushed to the retry chain with the
failure logged. -/
theorem handleRequest_invalid_type_spec (results : HandlerKind → Except String Unit)
    (t : Task)
    (h1 : t.requestType ≠ NewRequest) (h2 : t.requestType ≠ PartialRequest)
    (h3 : t.requestType ≠ PauseRequest) (h4 : t.requestType ≠ ResumeRequest)
    (h5 : t.requestType ≠ StopRequest) :
    (FlowRuntime.handleRequest results t.requestType).1 = none
    ∧ (∃ e, (FlowRuntime.handleRequest results t.requestType).2 = .error e)
    ∧ (FlowRuntime.consume results true (marshalTask t)).delivery = .pushed
    ∧ (FlowRuntime.consume results true (marshalTask t)).invoked = none
    ∧ (FlowRuntime.consume results true (marshalTask t)).logs ≠ [] := by
  have hreq : FlowRuntime.handleRequest results t.requestType
      = (none, .error ("invalid request received with type " ++ t.requestType)) := by
    simp [FlowRuntime.handleRequest, h1, h2, h3, h4, h5]
  refine ⟨by rw [hreq], ⟨_, by rw [hreq]⟩, ?_, ?_, ?_⟩ <;>
    simp [FlowRuntime.consume, unmarshalTask_marshalTask, hreq]

/-- The invalid-request theorem at request type `"BOGUS"`. -/
theorem handleRequest_invalid_type_witness :
    (FlowRuntime.handleRequest (fun _ => .ok ()) sampleBogusTask.requestType).1 = none
    ∧ (FlowRuntime.consume (fun _ => .ok ()) true
      (marshalTask sampleBogusTask)).delivery = .pushed := by
  have h := handleRequest_invalid_type_spec (fun _ => .ok ()) sampleBogusTask
    (by decide) (by decide) (by decide) (by decide) (by decide)
  exact ⟨h.1, h.2.2.1⟩

/-- C6: each run of `StartRuntime`'s register closure writes the worker
JSON under `goflow-worker:<worker_id>` with TTL `RDBKeyTimeOut` while
in worker mode, deletes that key once the runtime exited worker mode,
and in both cases writes every registered flow's exported descriptor
under `goflow-flow:<flow_name>` with the same TTL; the closure runs
once immediately and then every `GoFlowRegisterInterval` = 4 seconds,
with `RDBKeyTimeOut` = 10. -/
theorem startRuntime_registry_spec (workerMode : Bool) (workerId workerJson : String)
    (flowDetails : List (String × String)) (db : RegistryDB)
    (hnd : (flowDetails.map Prod.fst).Nodup) :
    (workerMode = true →
      registerDetails workerMode workerId workerJson flowDetails db
        ("goflow-worker:" ++ workerId) = some ⟨workerJson, some RDBKeyTimeOut⟩)
    ∧ (workerMode = false →
      registerDetails workerMode workerId workerJson flowDetails db
        ("goflow-worker:" ++ workerId) = none)
    ∧ (∀ f d, (f, d) ∈ flowDetails →
      registerDetails workerMode workerId workerJson flowDetails db
        ("goflow-flow:" ++ f) = some ⟨d, some RDBKeyTimeOut⟩)
    ∧ FlowRuntime.startRuntimeSchedule.immediateRun = true
    ∧ FlowRuntime.startRuntimeSchedule.intervalSeconds = 4
    ∧ RDBKeyTimeOut = 10 := by
  refine ⟨?_, ?_, ?_, rfl, rfl, rfl⟩
  · intro hw
    subst hw
    have hne : ∀ fd ∈ flowDetails, flowKey fd.1 ≠ workerKey workerId :=
      fun fd _ => flowKey_ne_workerKey fd.1 workerId
    show saveFlowDetails flowDetails (saveWorkerDetails workerId workerJson db)
        (workerKey workerId) = some ⟨workerJson, some RDBKeyTimeOut⟩
    rw [saveFlowDetails_untouched _ _ _ hne]
    simp [saveWorkerDetails, RegistryDB.setKey]
  · intro hw
    subst hw
    have hne : ∀ fd ∈ flowDetails, flowKey fd.1 ≠ workerKey workerId :=
      fun fd _ => flowKey_ne_workerKey fd.1 workerId
    show saveFlowDetails flowDetails (deleteWorkerDetails workerId db)
        (workerKey workerId) = none
    rw [saveFlowDetails_untouched _ _ _ hne]
    simp [deleteWorkerDetails, RegistryDB.delKey]
  · intro f d hm
    show saveFlowDetails flowDetails _ (flowKey f) = some ⟨d, some RDBKeyTimeOut⟩
    exact saveFlowDetails_stores flowDetails _ f d hnd hm

/-- The registry theorem at one flow and a concrete keyspace, in and
out of worker mode. -/
theorem startRuntime_registry_witness :
    registerDetails true "w1" "wjson" [("fa", "da")] RegistryDB.empty
      "goflow-worker:w1" = some ⟨"wjson", some 10⟩
    ∧ registerDetails true "w1" "wjson" [("fa", "da")] RegistryDB.empty
      "goflow-flow:fa" = some ⟨"da", some 10⟩
    ∧ registerDetails false "w1" "wjson" [("fa", "da")] RegistryDB.empty
      "goflow-worker:w1" = none := by
  have h1 := startRuntime_registry_spec true "w1" "wjson" [("fa", "da")]
    RegistryDB.empty (by decide)
  have h2 := startRuntime_registry_spec false "w1" "wjson" [("fa", "da")]
    RegistryDB.empty (by decide)
  exact ⟨h1.1 rfl, h1.2.2.1 "fa" "da" (by decide), h2.2.1 rfl⟩

/-- C8: `Register` is atomic for duplicate names: whenever some flow
name of the argument map is already registered, it returns an error and
leaves the registry exactly as it was; an empty map with an initialized
rmq connection returns no error and changes nothing. -/
theorem register_duplicate_atomic_spec {H : Type} (connInitialized : Bool)
    (registry flows : List (String × H)) (workerMode queueInitOk : Bool) :
    (flows.any (fun nf => (registry.lookup nf.1).isSome) = true →
      (FlowRuntime.register connInitialized registry flows workerMode
          queueInitOk).2 = registry
      ∧ ∃ e, (FlowRuntime.register connInitialized registry flows workerMode
          queueInitOk).1 = .error e)
    ∧ (connInitialized = true → flows = [] →
      FlowRuntime.register connInitialized registry flows workerMode queueInitOk
        = (.ok (), registry)) := by
  refine ⟨?_, ?_⟩
  · intro hdup
    have hne : flows.isEmpty = false := by
      cases flows with
      | nil => simp at hdup
      | cons a l => rfl
    cases hc : connInitialized with
    | false => simp [FlowRuntime.register]
    | true => simp [FlowRuntime.register, hne, hdup]
  · intro hc hempty
    subst hc
    subst hempty
    simp [FlowRuntime.register]

/-- The register theorem at a one-entry registry: a duplicate map is
rejected without change; an empty map is a no-op. -/
theorem register_duplicate_atomic_witness :
    (FlowRuntime.register true [("a", 1)] [("a", 2)] false true).2 = [("a", 1)]
    ∧ (∃ e, (FlowRuntime.register true [("a", 1)] [("a", 2)] false true).1
        = .error e)
    ∧ FlowRuntime.register true [("a", 1)] ([] : List (String × Nat)) false true
      = (.ok (), [("a", 1)]) := by
  have h := (register_duplicate_atomic_spec true [("a", 1)] [("a", 2)]
    false true).1 (by decide)
  exact ⟨h.1, h.2,
    (register_duplicate_atomic_spec true [("a", 1)] [] false true).2 rfl rfl⟩

/-- C9 as stated is false for raw bodies: `Request.Body` is an opaque
`[]byte`, and through `Execute` (`string(request.Body)`),
`json.Marshal` (which coerces invalid UTF-8 to U+FFFD), `Consume`'s
`json.Unmarshal` and `makeRequestFromTask` (`[]byte(task.Body)`), the
single invalid byte `0xFF` comes back as the three U+FFFD bytes. -/
theorem task_payload_roundtrip_cex :
    bodyBytesRoundTrip [0xFF] = [0xEF, 0xBF, 0xBD]
    ∧ ([0xEF, 0xBF, 0xBD] : List Nat) ≠ [0xFF] := by
  decide

/-- C9 (amended): task payloads round-trip up to `json.Marshal`'s UTF-8
coercion.  A body that is valid UTF-8 survives the pipeline byte for
byte; and at the field-list level — where Lean strings model the
valid-Unicode Go strings of the other fields — the NEW task built by
`Execute` and the PARTIAL task built by `EnqueuePartialRequest`,
unmarshalled the way `Consume` does and converted by
`makeRequestFromTask`, give back the original flow name, request id,
body, header, raw query and query. -/
theorem task_payload_roundtrip_spec (r : Request) (body : List Nat)
    (hb : utf8Valid body = true) :
    bodyBytesRoundTrip body = body
    ∧ (unmarshalTask (marshalTask (FlowRuntime.executeTask r.flowName r))).map
        makeRequestFromTask = some r
    ∧ (unmarshalTask (marshalTask (FlowRuntime.partialTask r))).map
        makeRequestFromTask = some r
    ∧ (FlowRuntime.executeTask r.flowName r).requestType = NewRequest
    ∧ (FlowRuntime.partialTask r).requestType = PartialRequest := by
  refine ⟨?_, ?_, ?_, rfl, rfl⟩
  · show goBytesOfString (sanitizeUtf8 (goStringOfBytes body)) = body
    simp [goBytesOfString, goStringOfBytes, sanitizeUtf8_eq_of_valid body hb]
  · cases r
    rfl
  · cases r
    rfl

/-- The amended round-trip theorem at a concrete request and a concrete
valid-UTF-8 body (`a` followed by the two bytes of `é`). -/
theorem task_payload_roundtrip_witness :
    bodyBytesRoundTrip [0x61, 0xC3, 0xA9] = [0x61, 0xC3, 0xA9]
    ∧ (unmarshalTask (marshalTask (FlowRuntime.executeTask
        sampleRequest.flowName sampleRequest))).map makeRequestFromTask
      = some sampleRequest := by
  have h := task_payload_roundtrip_spec sampleRequest [0x61, 0xC3, 0xA9]
    (by decide)
  exact ⟨h.1, h.2.1⟩

/-- C10: `EnqueuePartialRequest` publishes exactly one PARTIAL task and
returns an error exactly when publication fails, provided the runtime's
task-queue map holds a queue for the request's flow; without that queue
the nil-interface lookup faults instead of returning an error. -/
theorem enqueuePartialRequest_spec (taskQueues : String → Option Unit)
    (publishOk : Bool) (pr : Request) :
    (taskQueues pr.flowName = none →
      FlowRuntime.enqueuePartialRequest taskQueues publishOk pr = none)
    ∧ (∀ q, taskQueues pr.flowName = some q →
      (publishOk = true →
        FlowRuntime.enqueuePartialRequest taskQueues publishOk pr
          = some (.ok (FlowRuntime.partialTask pr)))
      ∧ (publishOk = false →
        ∃ e, FlowRuntime.enqueuePartialRequest taskQueues publishOk pr
          = some (.error e)))
    ∧ (FlowRuntime.partialTask pr).requestType = PartialRequest := by
  refine ⟨?_, ?_, rfl⟩
  · intro h
    simp [FlowRuntime.enqueuePartialRequest, h]
  · intro q hq
    refine ⟨fun hp => ?_, fun hp => ?_⟩ <;> subst hp <;>
      simp [FlowRuntime.enqueuePartialRequest, hq]

/-- The enqueue theorem at a concrete queue map: with the flow's queue
present one PARTIAL task is published; with it absent the call faults. -/
theorem enqueuePartialRequest_witness :
    FlowRuntime.enqueuePartialRequest
      (fun n => if n = "wf" then some () else none) true sampleRequest
      = some (.ok (FlowRuntime.partialTask sampleRequest))
    ∧ FlowRuntime.enqueuePartialRequest (fun _ => none) true sampleRequest
      = none := by
  exact ⟨((enqueuePartialRequest_spec
      (fun n => if n = "wf" then some () else none) true sampleRequest).2.1
      () rfl).1 rfl,
    (enqueuePartialRequest_spec (fun _ => none) true sampleRequest).1 rfl⟩
